import Mathlib

set_option maxRecDepth 100000

/-!
# Verification of the Insight video-summary pipeline (`main.py`)

Shallow embedding of the pipeline in `main.py`: Python strings are
`List Char`, the external collaborators (yt-dlp metadata lookup, the
transcript API, the OpenAI completion call) are oracle functions supplied
as parameters, and the orchestrator `get_video_summary` returns its
result together with a trace of collaborator calls and the final value of
the module-level `title` global.
-/

/-- Python strings are embedded as lists of characters. -/
abbrev PyStr := List Char

/-- Whitespace characters stripped by Python `str.strip()` (ASCII range,
which covers every string this program manipulates). -/
def pyIsSpace (c : Char) : Bool :=
  c = ' ' || c = '\t' || c = '\n' || c = '\r' || c = '\x0b' || c = '\x0c'

/-- Python `s.strip()`: remove leading and trailing whitespace. -/
def pyStrip (s : PyStr) : PyStr :=
  ((s.dropWhile pyIsSpace).reverse.dropWhile pyIsSpace).reverse

/-- Python `s.split("\n")`: split on every newline, keeping empty pieces
(`"".split("\n") == [""]`). -/
def pySplitNL : PyStr → List PyStr
  | [] => [[]]
  | c :: cs =>
    if c = '\n' then [] :: pySplitNL cs
    else
      match pySplitNL cs with
      | [] => [[c]]
      | l :: ls => (c :: l) :: ls

/-- Python `sep.join(pieces)`. -/
def pyJoin (sep : PyStr) : List PyStr → PyStr
  | [] => []
  | [l] => l
  | l :: ls => l ++ sep ++ pyJoin sep ls

/-- Python `needle in hay` substring test. -/
def pyContains (needle : PyStr) : PyStr → Bool
  | [] => needle.isEmpty
  | c :: t => needle.isPrefixOf (c :: t) || pyContains needle t

/-- Python `s.replace("\n", " ")`. -/
def pyReplaceNL (s : PyStr) : PyStr :=
  s.map fun c => if c = '\n' then ' ' else c

/-- The line-selection condition of `filter_captions`: Python
`(i - 1) % 3 == 0` on the 0-based line index (Python `%` on a negative
left operand returns a non-negative remainder, as `Int.emod` does). -/
def capIdx (i : Nat) : Bool :=
  ((i : Int) - 1) % 3 == 0

/-- The comprehension `[line for i, line in enumerate(lines) if (i - 1) % 3 == 0]`,
with `i` the running 0-based index. -/
def selectTextLines : Nat → List PyStr → List PyStr
  | _, [] => []
  | i, l :: ls =>
    if capIdx i then l :: selectTextLines (i + 1) ls
    else selectTextLines (i + 1) ls

/-- Function `filter_captions` from `main.py`:
`lines = captions.strip().split("\n")`;
`text_lines = [line for i, line in enumerate(lines) if (i - 1) % 3 == 0]`;
`return " ".join(text_lines)`. -/
def filter_captions (captions : PyStr) : PyStr :=
  let lines := pySplitNL (pyStrip captions)
  let text_lines := selectTextLines 0 lines
  pyJoin [' '] text_lines

example : filter_captions "0 --> 1\nHello\n\n1 --> 2\nWorld\n".toList
    = "Hello World".toList := by decide

example : filter_captions [] = [] := by decide

example : pyContains "Error occurred".toList
    "An error occurred: boom".toList = false := by decide

/-! ## Numeric timestamps

`download_captions` renders the float timestamps of each transcript entry
with `f"{start_time} --> {end_time}"`.  Timestamps are embedded as
rationals; `pyShowRat` models Python's decimal rendering of those floats
(sign, integer part, decimal point, fractional digits).  The filter
discards every time line, so no theorem depends on the exact digits —
only on the rendering being newline-free and starting with a sign or a
digit, which `pyShowRat` shares with Python's `repr`. -/

/-- Decimal digits of `n`, most significant first (fuel-based so that the
kernel can evaluate it). -/
def natCharsAux : Nat → Nat → List Char
  | 0, _ => []
  | f + 1, n =>
    if n < 10 then [Nat.digitChar n]
    else natCharsAux f (n / 10) ++ [Nat.digitChar (n % 10)]

/-- Decimal rendering of a natural number. -/
def natChars (n : Nat) : List Char := natCharsAux (n + 1) n

/-- Models Python's decimal rendering of a (rational) float value:
optional minus sign, integer part, a dot, then fractional digits. -/
def pyShowRat (q : ℚ) : List Char :=
  (if q.num < 0 then ['-'] else [])
    ++ natChars (q.num.natAbs / q.den)
    ++ ['.']
    ++ natChars (q.num.natAbs % q.den * 1000000 / q.den)

/-- One transcript entry returned by the caption API:
`{"start": float, "duration": float, "text": str}`. -/
structure CaptionEntry where
  start : ℚ
  duration : ℚ
  text : PyStr
deriving DecidableEq

/-- The `f"{start_time} --> {end_time}"` line of one SRT block, where
`end_time = start_time + duration`. -/
def srtLine1 (e : CaptionEntry) : PyStr :=
  pyShowRat e.start ++ " --> ".toList ++ pyShowRat (e.start + e.duration)

/-- The accumulation loop of `download_captions`:
`srt_captions += f"{start_time} --> {end_time}\n{text}\n\n"` with
`text = entry["text"].replace("\n", " ")`. -/
def srtCaptions : List CaptionEntry → PyStr
  | [] => []
  | e :: rest =>
    srtLine1 e ++ ['\n'] ++ pyReplaceNL e.text ++ ['\n', '\n'] ++ srtCaptions rest

/-! ## Terminal colour constants (`main.py` lines 16-34). -/

def COLOR_RESET : PyStr := "\x1b[0m".toList
def COLOR_RED : PyStr := "\x1b[31m".toList
def ICON_ERROR : PyStr := ['\uF00D']

/-! ## Collaborator oracles and call events

The external collaborators (yt-dlp, the transcript API, the OpenAI
client) are modelled as oracle functions.  Each embedded function that
applies an oracle also reports the call it made, so that the theorems can
speak about which collaborators a run invoked. -/

/-- The parsed JSON of `get_video_info`; the orchestrator reads its
`title` and `id` keys. -/
structure VideoInfo where
  title : PyStr
  id : PyStr
deriving DecidableEq

/-- One observable event of a pipeline run: a collaborator call, a prompt
builder invocation, or the unknown-mode warning print. -/
inductive Ev where
  | metaCall (url : PyStr)
  | capsCall (video_id lang : PyStr)
  | pbStd
  | pbBul
  | warnUnknownMode (mode : PyStr)
  | gptCall (prompt : PyStr) (max_tokens : Nat)
deriving DecidableEq

/-- Returns `true` exactly on Summarizer call events. -/
def Ev.isGpt : Ev → Bool
  | .gptCall _ _ => true
  | _ => false

/-- Returns `true` on every event except the unknown-mode warning. -/
def Ev.notWarn : Ev → Bool
  | .warnUnknownMode _ => false
  | _ => true

/-- The external world: outcomes of the three collaborator calls.  An
`Except` error is the exception the corresponding Python call would
raise (carrying its message). -/
structure Oracle where
  meta : PyStr → Except PyStr VideoInfo
  caps : PyStr → PyStr → Except PyStr (List CaptionEntry)
  gpt : PyStr → Nat → Except PyStr PyStr

/-- Function `get_video_info` from `main.py`: runs yt-dlp on the URL and parses
its JSON; returns `None` when the subprocess or the JSON parse fails. -/
def get_video_info (api : PyStr → Except PyStr VideoInfo) (url : PyStr) :
    Option VideoInfo × List Ev :=
  (match api url with
   | .ok v => some v
   | .error _ => none,
   [Ev.metaCall url])

/-- Function `download_captions` from `main.py`: fetches the transcript and builds
the SRT text; if the transcript API raises, returns the coloured
error-message string `"... An error occurred: {e} ..."` instead. -/
def download_captions (api : PyStr → PyStr → Except PyStr (List CaptionEntry))
    (video_id : PyStr) (lang_code : PyStr := "en".toList) : PyStr × List Ev :=
  (match api video_id lang_code with
   | .ok transcript => srtCaptions transcript
   | .error e => COLOR_RED ++ ICON_ERROR ++ " An error occurred: ".toList ++ e ++ COLOR_RESET,
   [Ev.capsCall video_id lang_code])

/-- Function `fetch_gpt3_response` from `main.py`: calls the completion API with
the prompt and `max_tokens` (default 4069) and returns the stripped
completion text; if the call raises, returns the coloured error-message
string `"... Error fetching GPT-3 response: {e} ..."` instead. -/
def fetch_gpt3_response (api : PyStr → Nat → Except PyStr PyStr)
    (prompt : PyStr) (max_tokens : Nat := 4069) : PyStr × List Ev :=
  (match api prompt max_tokens with
   | .ok content => pyStrip content
   | .error e => COLOR_RED ++ ICON_ERROR ++ " Error fetching GPT-3 response: ".toList
       ++ e ++ COLOR_RESET,
   [Ev.gptCall prompt max_tokens])

/-- Function `generate_standart_prompt` from `main.py`. -/
def generate_standart_prompt (video_title filtered_captions : PyStr) : PyStr :=
  "Please summarize the following video script in a few sentences. The name of the YouTube Video is ".toList
    ++ video_title
    ++ ". Filter out only the information and do not include any possible sponsored segments. ABSOLUTELY NEVER use phrases like \x27the video explains\x27, or \x27the script argues\x27, or \x27the video discusses\x27, instead just focus on the raw information, as if you were asked to explain the topic to someone without sounding like you learnt it in a YouTube video. Lastly again, completely ignore anything that seems like a sponsorship or a sponsored segment, or anything where someone directly talks about a product. Don\x27t leave out any facts in the video. Simply lay out the explained information for easy digestion. Here is the related video script:\n\n".toList
    ++ filtered_captions
    ++ "\n\nSummary:".toList

/-- Function `generate_bulletpoint_prompt` from `main.py`. -/
def generate_bulletpoint_prompt (video_title filtered_captions : PyStr) : PyStr :=
  "Please summarize the following video script in concise bullet points using markdown syntax. The name of the YouTube Video is ".toList
    ++ video_title
    ++ ". Filter out only the information and do not include any possible sponsored segments. ABSOLUTELY NEVER use phrases like \x27the video explains\x27, or \x27the script argues\x27, or \x27the video discusses\x27, instead just focus on the raw information, as if you were asked to explain the topic to someone without sounding like you learnt it in a YouTube video. Lastly again, completely ignore anything that seems like a sponsorship or a sponsored segment, or anything where someone directly talks about a product. Don\x27t leave out any facts in the video. Simply lay out the explained information in bullet points for easy digestion and markdown formatting. Here is the related video script:\n\n".toList
    ++ filtered_captions
    ++ "\n\nSummary in bullet points and markdown syntax:".toList

/-- Outcome of one `get_video_summary` run: the returned value, the trace
of collaborator calls and warning prints, and the value of the
module-level global `title` after the call. -/
structure RunOut where
  result : Option PyStr
  trace : List Ev
  gTitle : PyStr
deriving DecidableEq

/-- Function `get_video_summary` from `main.py`, the pipeline orchestrator.
`gTitle0` is the value of the module-level global `title` before the
call; the returned `gTitle` is its value afterwards. -/
def get_video_summary (o : Oracle) (video_url : PyStr)
    (video_lang : PyStr := "en".toList) (mode : PyStr := "standart".toList)
    (copy_to_clipboard : Bool := false) (gTitle0 : PyStr := []) : RunOut :=
  let m := get_video_info o.meta video_url
  match m.1 with
  | none => ⟨none, m.2, gTitle0⟩
  | some video_info =>
    let title := video_info.title
    let video_id := video_info.id
    let dc := download_captions o.caps video_id video_lang
    let captions := dc.1
    if pyContains "Error occurred".toList captions then
      ⟨none, m.2 ++ dc.2, title⟩
    else
      let filtered_captions := filter_captions captions
      let pb : PyStr × List Ev :=
        if mode = "standart".toList then
          (generate_standart_prompt title filtered_captions, [Ev.pbStd])
        else if mode = "bulletpoint".toList then
          (generate_bulletpoint_prompt title filtered_captions, [Ev.pbBul])
        else
          (generate_standart_prompt title filtered_captions,
           [Ev.warnUnknownMode mode, Ev.pbStd])
      let fr := fetch_gpt3_response o.gpt pb.1
      let response := fr.1
      if pyContains "Error fetching GPT-3 response".toList response then
        ⟨none, m.2 ++ dc.2 ++ pb.2 ++ fr.2, title⟩
      else
        ⟨some response, m.2 ++ dc.2 ++ pb.2 ++ fr.2, title⟩

/-! ## Block structure of SRT-style caption text

`download_captions` emits one 3-line block per caption segment: a time
line, the (newline-collapsed) text line, and a blank line.  The lemmas
below relate `filter_captions` to that block structure. -/

/-- One raw caption block: time line, text line, blank line. -/
def blockText (b : PyStr × PyStr) : PyStr :=
  b.1 ++ ['\n'] ++ b.2 ++ ['\n', '\n']

/-- Concatenation of raw caption blocks. -/
def blocksText : List (PyStr × PyStr) → PyStr
  | [] => []
  | b :: bs => blockText b ++ blocksText bs

/-- The physical lines contributed by every block after the first:
the separating blank line, then the block's time and text lines. -/
def tailLines : List (PyStr × PyStr) → List PyStr
  | [] => []
  | b :: bs => [] :: b.1 :: b.2 :: tailLines bs

/-- The physical lines of a block sequence, without the trailing blank
lines that `strip` removes. -/
def linesOf : List (PyStr × PyStr) → List PyStr
  | [] => []
  | b :: bs => b.1 :: b.2 :: tailLines bs

/-- A string that begins with a non-whitespace character. -/
def headNotSpace : PyStr → Bool
  | [] => false
  | c :: _ => !pyIsSpace c

theorem capIdx_iff (i : Nat) : capIdx i = true ↔ i % 3 = 1 := by
  simp only [capIdx, beq_iff_eq]
  omega

theorem sel_cons (i : Nat) (l : PyStr) (ls : List PyStr) :
    selectTextLines i (l :: ls) =
      if i % 3 = 1 then l :: selectTextLines (i + 1) ls
      else selectTextLines (i + 1) ls := by
  by_cases hc : i % 3 = 1
  · simp [selectTextLines, (capIdx_iff i).mpr hc, hc]
  · have hfalse : capIdx i = false := by
      cases hcap : capIdx i
      · rfl
      · exact absurd ((capIdx_iff i).mp hcap) hc
    simp [selectTextLines, hfalse, hc]

theorem sel_tailLines (bs : List (PyStr × PyStr)) :
    ∀ j : Nat, selectTextLines (3 * j + 2) (tailLines bs) = bs.map Prod.snd := by
  induction bs with
  | nil => intro j; rfl
  | cons b bs ih =>
    intro j
    show selectTextLines (3 * j + 2) ([] :: b.1 :: b.2 :: tailLines bs) = _
    rw [sel_cons, if_neg (by omega), sel_cons, if_neg (by omega),
      sel_cons, if_pos (by omega)]
    have h3 : 3 * j + 2 + 1 + 1 + 1 = 3 * (j + 1) + 2 := by ring
    rw [h3, ih (j + 1)]
    rfl

theorem sel_linesOf (bs : List (PyStr × PyStr)) :
    selectTextLines 0 (linesOf bs) = bs.map Prod.snd := by
  cases bs with
  | nil => rfl
  | cons b bs =>
    show selectTextLines 0 (b.1 :: b.2 :: tailLines bs) = _
    rw [sel_cons, if_neg (by omega), sel_cons, if_pos (by omega)]
    have h2 : (0 + 1 + 1 : Nat) = 3 * 0 + 2 := by norm_num
    rw [h2, sel_tailLines bs 0]
    rfl

theorem pySplitNL_ne_nil (s : PyStr) : pySplitNL s ≠ [] := by
  induction s with
  | nil => simp [pySplitNL]
  | cons c cs ih =>
    simp only [pySplitNL]
    split
    · simp
    · cases h : pySplitNL cs with
      | nil => simp
      | cons l ls => simp [h]

theorem pySplitNL_cons_newline (cs : PyStr) :
    pySplitNL ('\n' :: cs) = [] :: pySplitNL cs := by
  simp [pySplitNL]

theorem pySplitNL_cons_ne (c : Char) (cs : PyStr) (l : PyStr) (ls : List PyStr)
    (hc : c ≠ '\n') (h : pySplitNL cs = l :: ls) :
    pySplitNL (c :: cs) = (c :: l) :: ls := by
  simp [pySplitNL, hc, h]

theorem pySplitNL_no_newline (l : PyStr) (h : '\n' ∉ l) : pySplitNL l = [l] := by
  induction l with
  | nil => rfl
  | cons c cs ih =>
    have hc : c ≠ '\n' := fun e => h (e ▸ List.mem_cons_self c cs)
    have hcs : '\n' ∉ cs := fun m => h (List.mem_cons_of_mem c m)
    exact pySplitNL_cons_ne c cs cs [] hc (ih hcs)

theorem pySplitNL_append (l r : PyStr) (h : '\n' ∉ l) :
    pySplitNL (l ++ '\n' :: r) = l :: pySplitNL r := by
  induction l with
  | nil => simpa using pySplitNL_cons_newline r
  | cons c cs ih =>
    have hc : c ≠ '\n' := fun e => h (e ▸ List.mem_cons_self c cs)
    have hcs : '\n' ∉ cs := fun m => h (List.mem_cons_of_mem c m)
    exact pySplitNL_cons_ne c _ cs (pySplitNL r) hc (ih hcs)

theorem pySplitNL_join (ls : List PyStr) (hne : ls ≠ [])
    (h : ∀ l ∈ ls, '\n' ∉ l) :
    pySplitNL (pyJoin ['\n'] ls) = ls := by
  induction ls with
  | nil => exact absurd rfl hne
  | cons l ls ih =>
    cases ls with
    | nil =>
      show pySplitNL (pyJoin ['\n'] [l]) = [l]
      exact pySplitNL_no_newline l (h l (List.mem_cons_self l []))
    | cons l2 ls2 =>
      have hjoin : pyJoin ['\n'] (l :: l2 :: ls2)
          = l ++ '\n' :: pyJoin ['\n'] (l2 :: ls2) := by
        simp [pyJoin]
      rw [hjoin, pySplitNL_append _ _ (h l (List.mem_cons_self l _)),
        ih (by simp) (fun x hx => h x (List.mem_cons_of_mem l hx))]

theorem headNotSpace_append (a b : PyStr) (h : headNotSpace a = true) :
    headNotSpace (a ++ b) = true := by
  cases a with
  | nil => simp [headNotSpace] at h
  | cons c t => simpa [headNotSpace] using h

theorem dropWhile_of_headNotSpace (l : PyStr) (h : headNotSpace l = true) :
    l.dropWhile pyIsSpace = l := by
  cases l with
  | nil => rfl
  | cons c t =>
    simp only [headNotSpace, Bool.not_eq_true'] at h
    simp [List.dropWhile_cons, h]

theorem pyStrip_core (core : PyStr) (h1 : headNotSpace core = true)
    (h2 : headNotSpace core.reverse = true) :
    pyStrip (core ++ ['\n', '\n']) = core := by
  unfold pyStrip
  rw [dropWhile_of_headNotSpace _ (headNotSpace_append _ _ h1)]
  have hrev : (core ++ ['\n', '\n']).reverse = '\n' :: '\n' :: core.reverse := by
    simp
  rw [hrev]
  rw [List.dropWhile_cons_of_pos (by decide), List.dropWhile_cons_of_pos (by decide)]
  rw [dropWhile_of_headNotSpace _ h2, List.reverse_reverse]

theorem tailLines_no_newline (bs : List (PyStr × PyStr))
    (h : ∀ b ∈ bs, '\n' ∉ b.1 ∧ '\n' ∉ b.2) :
    ∀ l ∈ tailLines bs, '\n' ∉ l := by
  induction bs with
  | nil => intro l hl; simp [tailLines] at hl
  | cons b bs ih =>
    intro l hl
    have hb := h b (List.mem_cons_self b bs)
    simp only [tailLines, List.mem_cons] at hl
    rcases hl with rfl | rfl | rfl | hl
    · simp
    · exact hb.1
    · exact hb.2
    · exact ih (fun x hx => h x (List.mem_cons_of_mem b hx)) l hl

theorem linesOf_no_newline (bs : List (PyStr × PyStr))
    (h : ∀ b ∈ bs, '\n' ∉ b.1 ∧ '\n' ∉ b.2) :
    ∀ l ∈ linesOf bs, '\n' ∉ l := by
  cases bs with
  | nil => intro l hl; simp [linesOf] at hl
  | cons b bs =>
    intro l hl
    have hb := h b (List.mem_cons_self b bs)
    simp only [linesOf, List.mem_cons] at hl
    rcases hl with rfl | rfl | hl
    · exact hb.1
    · exact hb.2
    · exact tailLines_no_newline bs (fun x hx => h x (List.mem_cons_of_mem b hx)) l hl

theorem blocksText_eq (bs : List (PyStr × PyStr)) (hne : bs ≠ []) :
    blocksText bs = pyJoin ['\n'] (linesOf bs) ++ ['\n', '\n'] := by
  induction bs with
  | nil => exact absurd rfl hne
  | cons b bs ih =>
    cases bs with
    | nil =>
      simp [blocksText, blockText, linesOf, tailLines, pyJoin, List.append_assoc]
    | cons b2 bs2 =>
      have ihh := ih (by simp)
      show blockText b ++ blocksText (b2 :: bs2) = _
      rw [ihh]
      simp [blockText, linesOf, tailLines, pyJoin, List.append_assoc]

theorem revHeadNotSpace_append (a b : PyStr) (h : headNotSpace b.reverse = true) :
    headNotSpace (a ++ b).reverse = true := by
  rw [List.reverse_append]
  exact headNotSpace_append _ _ h

theorem joinLines_rev (bs : List (PyStr × PyStr)) (hne : bs ≠ [])
    (h : headNotSpace ((bs.getLastD ([], [])).2).reverse = true) :
    headNotSpace (pyJoin ['\n'] (linesOf bs)).reverse = true := by
  induction bs with
  | nil => exact absurd rfl hne
  | cons b bs ih =>
    cases bs with
    | nil =>
      have hj : pyJoin ['\n'] (linesOf [b]) = (b.1 ++ ['\n']) ++ b.2 := by
        simp [linesOf, tailLines, pyJoin, List.append_assoc]
      rw [hj]
      exact revHeadNotSpace_append _ _ (by simpa [List.getLastD] using h)
    | cons b2 bs2 =>
      have hlast : ((b :: b2 :: bs2).getLastD ([], [])).2
          = (((b2 :: bs2).getLastD ([], [])).2) := by
        simp [List.getLastD_cons]
      have ihh := ih (by simp) (by rw [← hlast]; exact h)
      have hj : pyJoin ['\n'] (linesOf (b :: b2 :: bs2))
          = (b.1 ++ ['\n'] ++ b.2 ++ ['\n', '\n']) ++ pyJoin ['\n'] (linesOf (b2 :: bs2)) := by
        simp [linesOf, tailLines, pyJoin, List.append_assoc]
      rw [hj]
      exact revHeadNotSpace_append _ _ ihh

theorem joinLines_head (b : PyStr × PyStr) (bs : List (PyStr × PyStr))
    (h : headNotSpace b.1 = true) :
    headNotSpace (pyJoin ['\n'] (linesOf (b :: bs))) = true := by
  have hj : pyJoin ['\n'] (linesOf (b :: bs))
      = b.1 ++ (['\n'] ++ pyJoin ['\n'] (b.2 :: tailLines bs)) := by
    simp [linesOf, pyJoin, List.append_assoc]
  rw [hj]
  exact headNotSpace_append _ _ h

theorem linesOf_ne_nil (b : PyStr × PyStr) (bs : List (PyStr × PyStr)) :
    linesOf (b :: bs) ≠ [] := by
  simp [linesOf]

/-- Central lemma: on text made of well-formed 3-line caption blocks,
`filter_captions` returns exactly the text line of each block, joined by
single spaces, in order. -/
theorem filter_captions_blocksText (bs : List (PyStr × PyStr))
    (hnl : ∀ b ∈ bs, '\n' ∉ b.1 ∧ '\n' ∉ b.2)
    (hhead : ∀ b ∈ bs, headNotSpace b.1 = true)
    (hlast : bs ≠ [] → headNotSpace ((bs.getLastD ([], [])).2).reverse = true) :
    filter_captions (blocksText bs) = pyJoin [' '] (bs.map Prod.snd) := by
  cases bs with
  | nil => rfl
  | cons b bs =>
    rw [blocksText_eq _ (by simp)]
    show pyJoin [' ']
      (selectTextLines 0 (pySplitNL (pyStrip
        (pyJoin ['\n'] (linesOf (b :: bs)) ++ ['\n', '\n'])))) = _
    rw [pyStrip_core _ (joinLines_head b bs (hhead b (List.mem_cons_self b bs)))
      (joinLines_rev _ (by simp) (hlast (by simp)))]
    rw [pySplitNL_join _ (linesOf_ne_nil b bs) (linesOf_no_newline _ hnl)]
    rw [sel_linesOf]

/-! ## Properties of the timestamp rendering -/

theorem natCharsAux_digits (f : Nat) : ∀ n, ∀ c ∈ natCharsAux f n,
    ∃ m, m < 10 ∧ c = Nat.digitChar m := by
  induction f with
  | zero => intro n c hc; simp [natCharsAux] at hc
  | succ f ih =>
    intro n c hc
    simp only [natCharsAux] at hc
    by_cases h : n < 10
    · rw [if_pos h] at hc
      simp only [List.mem_singleton] at hc
      exact ⟨n, h, hc⟩
    · rw [if_neg h] at hc
      rcases List.mem_append.mp hc with h1 | h2
      · exact ih (n / 10) c h1
      · simp only [List.mem_singleton] at h2
        exact ⟨n % 10, Nat.mod_lt _ (by norm_num), h2⟩

theorem digitChar_not_space : ∀ m, m < 10 →
    pyIsSpace (Nat.digitChar m) = false ∧ Nat.digitChar m ≠ '\n' := by decide

theorem natChars_ne_nil (n : Nat) : natChars n ≠ [] := by
  simp only [natChars, natCharsAux]
  split
  · simp
  · simp

theorem headNotSpace_natChars (n : Nat) : headNotSpace (natChars n) = true := by
  cases h : natChars n with
  | nil => exact absurd h (natChars_ne_nil n)
  | cons c t =>
    have hc : c ∈ natChars n := h ▸ List.mem_cons_self c t
    obtain ⟨m, hm, rfl⟩ := natCharsAux_digits _ _ _ hc
    simp [headNotSpace, (digitChar_not_space m hm).1]

theorem noNL_natChars (n : Nat) : '\n' ∉ natChars n := by
  intro h
  obtain ⟨m, hm, hme⟩ := natCharsAux_digits _ _ _ h
  exact (digitChar_not_space m hm).2 hme.symm

theorem headNotSpace_pyShowRat (q : ℚ) : headNotSpace (pyShowRat q) = true := by
  unfold pyShowRat
  by_cases h : q.num < 0
  · rw [if_pos h]
    simp only [List.append_assoc]
    exact headNotSpace_append ['-'] _ (by decide)
  · rw [if_neg h]
    simp only [List.nil_append, List.append_assoc]
    exact headNotSpace_append _ _ (headNotSpace_natChars _)

theorem noNL_pyShowRat (q : ℚ) : '\n' ∉ pyShowRat q := by
  unfold pyShowRat
  intro h
  rcases List.mem_append.mp h with h1 | h2
  · rcases List.mem_append.mp h1 with h3 | h4
    · rcases List.mem_append.mp h3 with h5 | h6
      · split at h5 <;> simp at h5
      · exact noNL_natChars _ h6
    · simp at h4
  · exact noNL_natChars _ h2

theorem noNL_srtLine1 (e : CaptionEntry) : '\n' ∉ srtLine1 e := by
  unfold srtLine1
  intro h
  rcases List.mem_append.mp h with h1 | h2
  · rcases List.mem_append.mp h1 with h3 | h4
    · exact noNL_pyShowRat _ h3
    · revert h4; decide
  · exact noNL_pyShowRat _ h2

theorem headNotSpace_srtLine1 (e : CaptionEntry) :
    headNotSpace (srtLine1 e) = true := by
  unfold srtLine1
  rw [List.append_assoc]
  exact headNotSpace_append _ _ (headNotSpace_pyShowRat _)

theorem noNL_pyReplaceNL (s : PyStr) : '\n' ∉ pyReplaceNL s := by
  unfold pyReplaceNL
  intro h
  obtain ⟨x, _, hx⟩ := List.mem_map.mp h
  by_cases he : x = '\n'
  · rw [if_pos he] at hx; exact absurd hx (by decide)
  · rw [if_neg he] at hx; exact he (hx ▸ rfl)

/-- The SRT entry of `download_captions` builds exactly one raw caption
block per transcript segment. -/
def srtBlock (e : CaptionEntry) : PyStr × PyStr :=
  (srtLine1 e, pyReplaceNL e.text)

theorem srtCaptions_eq_blocksText (entries : List CaptionEntry) :
    srtCaptions entries = blocksText (entries.map srtBlock) := by
  induction entries with
  | nil => rfl
  | cons e rest ih =>
    simp [srtCaptions, blocksText, blockText, srtBlock, ih, List.append_assoc]

theorem getLastD_ignore {α : Type} (l : List α) (h : l ≠ []) (d d' : α) :
    l.getLastD d = l.getLastD d' := by
  cases l with
  | nil => exact absurd rfl h
  | cons a l => rw [List.getLastD_cons, List.getLastD_cons]

theorem getLastD_map {α β : Type} (f : α → β) (l : List α) :
    ∀ a : α, (l.map f).getLastD (f a) = f (l.getLastD a) := by
  induction l with
  | nil => intro a; rfl
  | cons b l ih =>
    intro a
    simp only [List.map_cons, List.getLastD_cons]
    exact ih b

/-! ## Auxiliary lemmas about `pyStrip` and `pyContains` -/

theorem dropWhile_all_append (p : Char → Bool) (l r : PyStr)
    (h : ∀ c ∈ l, p c = true) :
    (l ++ r).dropWhile p = r.dropWhile p := by
  induction l with
  | nil => rfl
  | cons c l ih =>
    rw [List.cons_append, List.dropWhile_cons_of_pos (h c (List.mem_cons_self c l))]
    exact ih fun x hx => h x (List.mem_cons_of_mem c hx)

/-- Stripping a string that is a non-whitespace-delimited core followed
by trailing whitespace yields the core. -/
theorem pyStrip_append_trailing (core ws : PyStr)
    (h1 : headNotSpace core = true) (h2 : headNotSpace core.reverse = true)
    (hws : ∀ c ∈ ws, pyIsSpace c = true) :
    pyStrip (core ++ ws) = core := by
  unfold pyStrip
  rw [dropWhile_of_headNotSpace _ (headNotSpace_append _ _ h1)]
  rw [List.reverse_append]
  rw [dropWhile_all_append _ _ _ (fun c hc => hws c (List.mem_reverse.mp hc))]
  rw [dropWhile_of_headNotSpace _ h2, List.reverse_reverse]

theorem isPrefixOf_self_append (n y : PyStr) : n.isPrefixOf (n ++ y) = true := by
  induction n with
  | nil => simp [List.isPrefixOf]
  | cons c n ih => simp [List.isPrefixOf, ih]

theorem pyContains_left (n pre : PyStr) :
    ∀ rest, pyContains n rest = true → pyContains n (pre ++ rest) = true := by
  induction pre with
  | nil => intro rest h; exact h
  | cons c pre ih =>
    intro rest h
    show pyContains n (c :: (pre ++ rest)) = true
    simp only [pyContains]
    rw [ih rest h]
    simp

theorem pyContains_self_append (n y : PyStr) : pyContains n (n ++ y) = true := by
  cases n with
  | nil =>
    cases y with
    | nil => rfl
    | cons c y => simp [pyContains]
  | cons c n =>
    show pyContains (c :: n) (c :: (n ++ y)) = true
    simp only [pyContains]
    have h := isPrefixOf_self_append (c :: n) y
    rw [show (c :: n) ++ y = c :: (n ++ y) from rfl] at h
    rw [h]
    simp

/-- The error string built by `fetch_gpt3_response`'s exception handler
always contains the needle that `get_video_summary` greps for. -/
theorem gpt_error_contains (e : PyStr) :
    pyContains "Error fetching GPT-3 response".toList
      (COLOR_RED ++ ICON_ERROR ++ " Error fetching GPT-3 response: ".toList
        ++ e ++ COLOR_RESET) = true := by
  have hsplit : COLOR_RED ++ ICON_ERROR ++ " Error fetching GPT-3 response: ".toList
      ++ e ++ COLOR_RESET
      = (COLOR_RED ++ ICON_ERROR ++ [' '])
        ++ ("Error fetching GPT-3 response".toList ++ (": ".toList ++ e ++ COLOR_RESET)) := by
    have hlit : " Error fetching GPT-3 response: ".toList
        = ' ' :: ("Error fetching GPT-3 response".toList ++ ": ".toList) := by decide
    rw [hlit]
    simp [List.append_assoc]
  rw [hsplit]
  exact pyContains_left _ _ _ (pyContains_self_append _ _)

/-! ## Branch equations of the orchestrator -/

theorem download_captions_snd (api : PyStr → PyStr → Except PyStr (List CaptionEntry))
    (video_id lang : PyStr) :
    (download_captions api video_id lang).2 = [Ev.capsCall video_id lang] := rfl

theorem fetch_gpt3_response_snd (api : PyStr → Nat → Except PyStr PyStr)
    (prompt : PyStr) (b : Nat) :
    (fetch_gpt3_response api prompt b).2 = [Ev.gptCall prompt b] := rfl

/-- Run shape when the Metadata Resolver fails. -/
theorem run_meta_err (o : Oracle) (url lang mode : PyStr) (copy : Bool) (g0 e : PyStr)
    (hm : o.meta url = .error e) :
    get_video_summary o url lang mode copy g0 = ⟨none, [Ev.metaCall url], g0⟩ := by
  simp only [get_video_summary, get_video_info, hm]

/-- Run shape when the caption check at line 202 flags the caption text. -/
theorem run_caps_flagged (o : Oracle) (url lang mode : PyStr) (copy : Bool)
    (g0 : PyStr) (v : VideoInfo)
    (hm : o.meta url = .ok v)
    (hcap : pyContains "Error occurred".toList
      (download_captions o.caps v.id lang).1 = true) :
    get_video_summary o url lang mode copy g0
      = ⟨none, [Ev.metaCall url, Ev.capsCall v.id lang], v.title⟩ := by
  simp only [get_video_summary, get_video_info, hm, hcap, download_captions_snd,
    eq_self_iff_true, if_true, List.cons_append, List.nil_append]

/-- Run shape in `standart` mode once captions pass the check. -/
theorem run_std (o : Oracle) (url lang : PyStr) (copy : Bool) (g0 : PyStr)
    (v : VideoInfo)
    (hm : o.meta url = .ok v)
    (hcap : pyContains "Error occurred".toList
      (download_captions o.caps v.id lang).1 = false) :
    get_video_summary o url lang "standart".toList copy g0
      = ⟨(if pyContains "Error fetching GPT-3 response".toList
            (fetch_gpt3_response o.gpt (generate_standart_prompt v.title
              (filter_captions (download_captions o.caps v.id lang).1))).1 = true
          then none
          else some ((fetch_gpt3_response o.gpt (generate_standart_prompt v.title
            (filter_captions (download_captions o.caps v.id lang).1))).1)),
         [Ev.metaCall url, Ev.capsCall v.id lang, Ev.pbStd,
          Ev.gptCall (generate_standart_prompt v.title
            (filter_captions (download_captions o.caps v.id lang).1)) 4069],
         v.title⟩ := by
  simp only [get_video_summary, get_video_info, hm, hcap, download_captions_snd,
    fetch_gpt3_response_snd, Bool.false_eq_true, if_false, eq_self_iff_true, if_true,
    List.cons_append, List.nil_append, List.append_assoc, List.singleton_append]
  split <;> rfl

/-- Run shape in `bulletpoint` mode once captions pass the check. -/
theorem run_bul (o : Oracle) (url lang : PyStr) (copy : Bool) (g0 : PyStr)
    (v : VideoInfo)
    (hm : o.meta url = .ok v)
    (hcap : pyContains "Error occurred".toList
      (download_captions o.caps v.id lang).1 = false) :
    get_video_summary o url lang "bulletpoint".toList copy g0
      = ⟨(if pyContains "Error fetching GPT-3 response".toList
            (fetch_gpt3_response o.gpt (generate_bulletpoint_prompt v.title
              (filter_captions (download_captions o.caps v.id lang).1))).1 = true
          then none
          else some ((fetch_gpt3_response o.gpt (generate_bulletpoint_prompt v.title
            (filter_captions (download_captions o.caps v.id lang).1))).1)),
         [Ev.metaCall url, Ev.capsCall v.id lang, Ev.pbBul,
          Ev.gptCall (generate_bulletpoint_prompt v.title
            (filter_captions (download_captions o.caps v.id lang).1)) 4069],
         v.title⟩ := by
  have hne : (("bulletpoint".toList : PyStr) = "standart".toList) = False :=
    eq_false (by decide)
  simp only [get_video_summary, get_video_info, hm, hcap, hne, download_captions_snd,
    fetch_gpt3_response_snd, Bool.false_eq_true, if_false, eq_self_iff_true, if_true,
    List.cons_append, List.nil_append, List.append_assoc, List.singleton_append]
  split <;> rfl

/-- Run shape for an unrecognized mode once captions pass the check:
warning print, then the standard template. -/
theorem run_unk (o : Oracle) (url lang mode : PyStr) (copy : Bool) (g0 : PyStr)
    (v : VideoInfo)
    (hm1 : mode ≠ "standart".toList) (hm2 : mode ≠ "bulletpoint".toList)
    (hm : o.meta url = .ok v)
    (hcap : pyContains "Error occurred".toList
      (download_captions o.caps v.id lang).1 = false) :
    get_video_summary o url lang mode copy g0
      = ⟨(if pyContains "Error fetching GPT-3 response".toList
            (fetch_gpt3_response o.gpt (generate_standart_prompt v.title
              (filter_captions (download_captions o.caps v.id lang).1))).1 = true
          then none
          else some ((fetch_gpt3_response o.gpt (generate_standart_prompt v.title
            (filter_captions (download_captions o.caps v.id lang).1))).1)),
         [Ev.metaCall url, Ev.capsCall v.id lang, Ev.warnUnknownMode mode, Ev.pbStd,
          Ev.gptCall (generate_standart_prompt v.title
            (filter_captions (download_captions o.caps v.id lang).1)) 4069],
         v.title⟩ := by
  have hne1 : ((mode : PyStr) = "standart".toList) = False := eq_false hm1
  have hne2 : ((mode : PyStr) = "bulletpoint".toList) = False := eq_false hm2
  simp only [get_video_summary, get_video_info, hm, hne1, hne2, hcap,
    download_captions_snd, fetch_gpt3_response_snd, Bool.false_eq_true, if_false,
    eq_self_iff_true, if_true,
    List.cons_append, List.nil_append, List.append_assoc, List.singleton_append]
  split <;> rfl

/-! ## Claim theorems -/

/-- C1 (code bug): the spec says a Caption Fetcher failure aborts the
pipeline (result `None`, Summarizer never called).  The code intends this
(`if "Error occurred" in captions: ... return None`), but
`download_captions` returns `"... An error occurred: {e} ..."`, whose
lower-case `error` never matches the needle `"Error occurred"`, so on a
caption-fetch failure the run continues: the Summarizer is invoked on the
error text and the pipeline returns its summary instead of `None`. -/
theorem c1_caption_failure_not_aborted :
    (get_video_summary
      ⟨fun _ => .ok ⟨"T".toList, "vid".toList⟩,
       fun _ _ => .error "no transcript found".toList,
       fun _ _ => .ok "SUMMARY".toList⟩
      "u".toList).result = some "SUMMARY".toList
    ∧ ((get_video_summary
      ⟨fun _ => .ok ⟨"T".toList, "vid".toList⟩,
       fun _ _ => .error "no transcript found".toList,
       fun _ _ => .ok "SUMMARY".toList⟩
      "u".toList).trace.any Ev.isGpt) = true := by
  constructor
  · decide
  · decide

/-- C3: `filter_captions` is total over all string inputs — it is a total
function in the embedding, and the empty input yields the empty output. -/
theorem c3_filter_captions_total :
    filter_captions [] = [] ∧ ∀ s : PyStr, ∃ r : PyStr, filter_captions s = r := by
  constructor
  · decide
  · intro s
    exact ⟨filter_captions s, rfl⟩

/-- C5: if the Metadata Resolver fails, `get_video_summary` returns
`None` and the Caption Fetcher, the Prompt Builder and the Summarizer are
never invoked. -/
theorem c5_meta_failure_short_circuits (o : Oracle) (url lang mode : PyStr)
    (copy : Bool) (g0 e : PyStr) (hm : o.meta url = .error e) :
    (get_video_summary o url lang mode copy g0).result = none
    ∧ (∀ i l, Ev.capsCall i l ∉ (get_video_summary o url lang mode copy g0).trace)
    ∧ Ev.pbStd ∉ (get_video_summary o url lang mode copy g0).trace
    ∧ Ev.pbBul ∉ (get_video_summary o url lang mode copy g0).trace
    ∧ (∀ p b, Ev.gptCall p b ∉ (get_video_summary o url lang mode copy g0).trace) := by
  rw [run_meta_err o url lang mode copy g0 e hm]
  refine ⟨rfl, ?_, ?_, ?_, ?_⟩ <;> simp

theorem c5_meta_failure_short_circuits_witness :
    ((⟨fun _ => .error "yt-dlp returned 1".toList,
       fun _ _ => .ok [], fun _ _ => .ok "S".toList⟩ : Oracle).meta "u".toList
      = .error "yt-dlp returned 1".toList)
    ∧ (get_video_summary
        ⟨fun _ => .error "yt-dlp returned 1".toList,
         fun _ _ => .ok [], fun _ _ => .ok "S".toList⟩
        "u".toList "en".toList "standart".toList false []).result = none :=
  ⟨rfl,
    (c5_meta_failure_short_circuits
      ⟨fun _ => .error "yt-dlp returned 1".toList,
       fun _ _ => .ok [], fun _ _ => .ok "S".toList⟩
      "u".toList "en".toList "standart".toList false [] "yt-dlp returned 1".toList
      rfl).1⟩

/-- C6: every Summarizer call made by a pipeline run passes the fixed
default token budget 4069 (the orchestrator supplies no override, so the
default parameter of `fetch_gpt3_response` applies). -/
theorem c6_summarizer_budget (o : Oracle) (url lang mode : PyStr) (copy : Bool)
    (g0 : PyStr) (p : PyStr) (b : Nat)
    (hmem : Ev.gptCall p b ∈ (get_video_summary o url lang mode copy g0).trace) :
    b = 4069 := by
  cases hmOut : o.meta url with
  | error e =>
    rw [run_meta_err o url lang mode copy g0 e hmOut] at hmem
    simp at hmem
  | ok v =>
    cases hcap : pyContains "Error occurred".toList
        (download_captions o.caps v.id lang).1 with
    | true =>
      rw [run_caps_flagged o url lang mode copy g0 v hmOut hcap] at hmem
      simp at hmem
    | false =>
      by_cases hstd : mode = "standart".toList
      · subst hstd
        rw [run_std o url lang copy g0 v hmOut hcap] at hmem
        simp at hmem
        exact hmem.2
      · by_cases hbul : mode = "bulletpoint".toList
        · subst hbul
          rw [run_bul o url lang copy g0 v hmOut hcap] at hmem
          simp at hmem
          exact hmem.2
        · rw [run_unk o url lang mode copy g0 v hstd hbul hmOut hcap] at hmem
          simp at hmem
          exact hmem.2

theorem c6_summarizer_budget_witness :
    (Ev.gptCall (generate_standart_prompt "T".toList (filter_captions []))
        4069
      ∈ (get_video_summary
          ⟨fun _ => .ok ⟨"T".toList, "vid".toList⟩,
           fun _ _ => .ok [], fun _ _ => .ok "S".toList⟩
          "u".toList).trace)
    ∧ (4069 : Nat) = 4069 :=
  ⟨by decide,
    c6_summarizer_budget
      ⟨fun _ => .ok ⟨"T".toList, "vid".toList⟩,
       fun _ _ => .ok [], fun _ _ => .ok "S".toList⟩
      "u".toList "en".toList "standart".toList false []
      (generate_standart_prompt "T".toList (filter_captions [])) 4069
      (by decide)⟩

/-- C9: error detection at the summarization stage is by substring match:
here the Summarizer succeeds (returns `ok` text that merely mentions
"Error fetching GPT-3 response"), yet `get_video_summary` treats the run
as failed and returns `None`. -/
theorem c9_substring_error_detection :
    ((⟨fun _ => .ok ⟨"T".toList, "vid".toList⟩,
       fun _ _ => .ok [],
       fun _ _ => .ok "The log printed Error fetching GPT-3 response today".toList⟩ :
        Oracle).gpt (generate_standart_prompt "T".toList (filter_captions [])) 4069
      = .ok "The log printed Error fetching GPT-3 response today".toList)
    ∧ (get_video_summary
        ⟨fun _ => .ok ⟨"T".toList, "vid".toList⟩,
         fun _ _ => .ok [],
         fun _ _ => .ok "The log printed Error fetching GPT-3 response today".toList⟩
        "u".toList).result = none := by
  constructor
  · rfl
  · decide

/-- C10: every run that passes the metadata stage overwrites the
module-level global `title` with the resolved video title, whatever its
previous value, and the new value persists after the call returns. -/
theorem c10_global_title_overwritten (o : Oracle) (url lang mode : PyStr)
    (copy : Bool) (g0 : PyStr) (v : VideoInfo) (hm : o.meta url = .ok v) :
    (get_video_summary o url lang mode copy g0).gTitle = v.title := by
  cases hcap : pyContains "Error occurred".toList
      (download_captions o.caps v.id lang).1 with
  | true => rw [run_caps_flagged o url lang mode copy g0 v hm hcap]
  | false =>
    by_cases hstd : mode = "standart".toList
    · subst hstd
      rw [run_std o url lang copy g0 v hm hcap]
    · by_cases hbul : mode = "bulletpoint".toList
      · subst hbul
        rw [run_bul o url lang copy g0 v hm hcap]
      · rw [run_unk o url lang mode copy g0 v hstd hbul hm hcap]

theorem c10_global_title_overwritten_witness :
    ((⟨fun _ => .ok ⟨"T".toList, "vid".toList⟩,
       fun _ _ => .ok [], fun _ _ => .ok "S".toList⟩ : Oracle).meta "u".toList
      = .ok ⟨"T".toList, "vid".toList⟩)
    ∧ (get_video_summary
        ⟨fun _ => .ok ⟨"T".toList, "vid".toList⟩,
         fun _ _ => .ok [], fun _ _ => .ok "S".toList⟩
        "u".toList "en".toList "standart".toList false
        "stale title".toList).gTitle = "T".toList :=
  ⟨rfl,
    c10_global_title_overwritten
      ⟨fun _ => .ok ⟨"T".toList, "vid".toList⟩,
       fun _ _ => .ok [], fun _ _ => .ok "S".toList⟩
      "u".toList "en".toList "standart".toList false "stale title".toList
      ⟨"T".toList, "vid".toList⟩ rfl⟩

/-- C4: for any mode other than `standart` and `bulletpoint`, the run
prints the unknown-mode warning, builds exactly the standard prompt, and
otherwise behaves identically to a `standart`-mode run (same result, same
global title, same trace once the warning is removed); the warning is
emitted whenever the run reaches the mode dispatch. -/
theorem c4_unknown_mode_fallback (o : Oracle) (url lang mode : PyStr) (copy : Bool)
    (g0 : PyStr) (hm1 : mode ≠ "standart".toList) (hm2 : mode ≠ "bulletpoint".toList) :
    (get_video_summary o url lang mode copy g0).result
        = (get_video_summary o url lang "standart".toList copy g0).result
    ∧ (get_video_summary o url lang mode copy g0).gTitle
        = (get_video_summary o url lang "standart".toList copy g0).gTitle
    ∧ (get_video_summary o url lang mode copy g0).trace.filter Ev.notWarn
        = (get_video_summary o url lang "standart".toList copy g0).trace
    ∧ (∀ v, o.meta url = .ok v →
        pyContains "Error occurred".toList (download_captions o.caps v.id lang).1 = false →
        Ev.warnUnknownMode mode ∈ (get_video_summary o url lang mode copy g0).trace) := by
  cases hmOut : o.meta url with
  | error e =>
    rw [run_meta_err o url lang mode copy g0 e hmOut,
      run_meta_err o url lang "standart".toList copy g0 e hmOut]
    refine ⟨rfl, rfl, by simp [Ev.notWarn], ?_⟩
    intro v hv _
    exact Except.noConfusion hv
  | ok v =>
    cases hcap : pyContains "Error occurred".toList
        (download_captions o.caps v.id lang).1 with
    | true =>
      rw [run_caps_flagged o url lang mode copy g0 v hmOut hcap,
        run_caps_flagged o url lang "standart".toList copy g0 v hmOut hcap]
      refine ⟨rfl, rfl, by simp [Ev.notWarn], ?_⟩
      intro v2 hv2 hcap2
      injection hv2 with hveq
      subst hveq
      rw [hcap] at hcap2
      exact absurd hcap2 (by decide)
    | false =>
      rw [run_unk o url lang mode copy g0 v hm1 hm2 hmOut hcap,
        run_std o url lang copy g0 v hmOut hcap]
      refine ⟨rfl, rfl, by simp [Ev.notWarn], ?_⟩
      intro v2 _ _
      simp

theorem c4_unknown_mode_fallback_witness :
    ("fancy".toList ≠ "standart".toList)
    ∧ (get_video_summary
        ⟨fun _ => .ok ⟨"T".toList, "vid".toList⟩,
         fun _ _ => .ok [], fun _ _ => .ok "S".toList⟩
        "u".toList "en".toList "fancy".toList false []).result
      = (get_video_summary
        ⟨fun _ => .ok ⟨"T".toList, "vid".toList⟩,
         fun _ _ => .ok [], fun _ _ => .ok "S".toList⟩
        "u".toList "en".toList "standart".toList false []).result :=
  ⟨by decide,
    (c4_unknown_mode_fallback
      ⟨fun _ => .ok ⟨"T".toList, "vid".toList⟩,
       fun _ _ => .ok [], fun _ _ => .ok "S".toList⟩
      "u".toList "en".toList "fancy".toList false []
      (by decide) (by decide)).1⟩

/-- The summarization stage never yields an empty success as long as the
completion text strips to a non-empty string: helper for C8. -/
theorem gpt_stage_nonempty (o : Oracle)
    (hgpt : ∀ p b c, o.gpt p b = .ok c → pyStrip c ≠ [])
    (P s : PyStr)
    (hs : (if pyContains "Error fetching GPT-3 response".toList
            (fetch_gpt3_response o.gpt P).1 = true
          then (none : Option PyStr)
          else some ((fetch_gpt3_response o.gpt P).1)) = some s) :
    s ≠ [] := by
  cases hg : o.gpt P 4069 with
  | ok c =>
    have hfr : (fetch_gpt3_response o.gpt P).1 = pyStrip c := by
      simp [fetch_gpt3_response, hg]
    rw [hfr] at hs
    by_cases hc : pyContains "Error fetching GPT-3 response".toList (pyStrip c) = true
    · rw [if_pos hc] at hs
      exact absurd hs (by simp)
    · rw [if_neg hc] at hs
      injection hs with hsv
      rw [← hsv]
      exact hgpt P 4069 c hg
  | error e =>
    have hfr : (fetch_gpt3_response o.gpt P).1
        = COLOR_RED ++ ICON_ERROR ++ " Error fetching GPT-3 response: ".toList
          ++ e ++ COLOR_RESET := by
      simp [fetch_gpt3_response, hg]
    rw [hfr] at hs
    rw [if_pos (gpt_error_contains e)] at hs
    exact absurd hs (by simp)

/-- C8 counterexample: a run whose Summarizer succeeds with
whitespace-only completion text returns `some ""` — a successful outcome
carrying an empty summary string, which the claim forbids. -/
theorem c8_cex_empty_success :
    (get_video_summary
      ⟨fun _ => .ok ⟨"T".toList, "vid".toList⟩,
       fun _ _ => .ok [],
       fun _ _ => .ok " ".toList⟩
      "u".toList).result = some [] := by
  decide

/-- C8 (amended): the pipeline outcome is `None` or `some` of the
stripped Summarizer output; the successful result is non-empty provided
the Summarizer's completion text strips to a non-empty string (if it
strips to empty, the run succeeds with the empty string). -/
theorem c8_amended_nonempty_success (o : Oracle) (url lang mode : PyStr)
    (copy : Bool) (g0 : PyStr)
    (hgpt : ∀ p b c, o.gpt p b = .ok c → pyStrip c ≠ [])
    (s : PyStr) (hs : (get_video_summary o url lang mode copy g0).result = some s) :
    s ≠ [] := by
  cases hmOut : o.meta url with
  | error e =>
    rw [run_meta_err o url lang mode copy g0 e hmOut] at hs
    exact absurd hs (by simp)
  | ok v =>
    cases hcap : pyContains "Error occurred".toList
        (download_captions o.caps v.id lang).1 with
    | true =>
      rw [run_caps_flagged o url lang mode copy g0 v hmOut hcap] at hs
      exact absurd hs (by simp)
    | false =>
      by_cases hstd : mode = "standart".toList
      · subst hstd
        rw [run_std o url lang copy g0 v hmOut hcap] at hs
        exact gpt_stage_nonempty o hgpt _ s hs
      · by_cases hbul : mode = "bulletpoint".toList
        · subst hbul
          rw [run_bul o url lang copy g0 v hmOut hcap] at hs
          exact gpt_stage_nonempty o hgpt _ s hs
        · rw [run_unk o url lang mode copy g0 v hstd hbul hmOut hcap] at hs
          exact gpt_stage_nonempty o hgpt _ s hs

theorem c8_amended_nonempty_success_witness :
    ((get_video_summary
        ⟨fun _ => .ok ⟨"T".toList, "vid".toList⟩,
         fun _ _ => .ok [], fun _ _ => .ok "SUMMARY".toList⟩
        "u".toList "en".toList "standart".toList false []).result
      = some "SUMMARY".toList)
    ∧ "SUMMARY".toList ≠ [] :=
  ⟨by decide,
    c8_amended_nonempty_success
      ⟨fun _ => .ok ⟨"T".toList, "vid".toList⟩,
       fun _ _ => .ok [], fun _ _ => .ok "SUMMARY".toList⟩
      "u".toList "en".toList "standart".toList false []
      (by
        intro p b c h
        injection h with h2
        rw [← h2]
        decide)
      "SUMMARY".toList (by decide)⟩

/-- C2: on every well-formed sequence of 3-line caption blocks (newline-free
time and text lines, time lines starting with a visible character, last
text line ending with a visible character), `filter_captions` returns
exactly the text line of each block, space-joined, in order; and the
concrete 6-line example yields `"Hello World"`. -/
theorem c2_filter_wellformed_blocks :
    (∀ bs : List (PyStr × PyStr),
      (∀ b ∈ bs, '\n' ∉ b.1 ∧ '\n' ∉ b.2) →
      (∀ b ∈ bs, headNotSpace b.1 = true) →
      (bs ≠ [] → headNotSpace ((bs.getLastD ([], [])).2).reverse = true) →
      filter_captions (blocksText bs) = pyJoin [' '] (bs.map Prod.snd))
    ∧ filter_captions "0 --> 1\nHello\n\n1 --> 2\nWorld\n".toList
        = "Hello World".toList := by
  constructor
  · intro bs h1 h2 h3
    exact filter_captions_blocksText bs h1 h2 h3
  · decide

theorem c2_filter_wellformed_blocks_witness :
    (∀ b ∈ ([("0 --> 1".toList, "Hello".toList),
             ("1 --> 2".toList, "World".toList)] : List (PyStr × PyStr)),
      '\n' ∉ b.1 ∧ '\n' ∉ b.2)
    ∧ filter_captions (blocksText
        [("0 --> 1".toList, "Hello".toList), ("1 --> 2".toList, "World".toList)])
      = pyJoin [' ']
          (([("0 --> 1".toList, "Hello".toList),
             ("1 --> 2".toList, "World".toList)] : List (PyStr × PyStr)).map Prod.snd) :=
  ⟨by decide,
    c2_filter_wellformed_blocks.1
      [("0 --> 1".toList, "Hello".toList), ("1 --> 2".toList, "World".toList)]
      (by decide) (by decide) (by decide)⟩

/-- C7 counterexample: one segment whose text has a trailing space.
`strip` eats the trailing space together with the final blank lines, so
the round-trip drops it: the filter returns `"Hi"`, not `"Hi "`. -/
theorem c7_cex_trailing_space :
    filter_captions (srtCaptions [⟨0, 1, "Hi ".toList⟩])
      ≠ pyJoin [' ']
          (([⟨0, 1, "Hi ".toList⟩] : List CaptionEntry).map fun e => pyReplaceNL e.text) := by
  have hrep : pyReplaceNL "Hi ".toList = "Hi".toList ++ [' '] := by decide
  have h1 : srtCaptions [⟨0, 1, "Hi ".toList⟩]
      = (srtLine1 ⟨0, 1, "Hi ".toList⟩ ++ ['\n'] ++ "Hi".toList) ++ [' ', '\n', '\n'] := by
    show srtLine1 ⟨0, 1, "Hi ".toList⟩ ++ ['\n'] ++ pyReplaceNL "Hi ".toList
        ++ ['\n', '\n'] ++ [] = _
    rw [hrep]
    simp [List.append_assoc]
  have hhead : headNotSpace (srtLine1 ⟨0, 1, "Hi ".toList⟩ ++ ['\n'] ++ "Hi".toList) = true :=
    headNotSpace_append _ _ (headNotSpace_append _ _ (headNotSpace_srtLine1 _))
  have hrev : headNotSpace
      ((srtLine1 ⟨0, 1, "Hi ".toList⟩ ++ ['\n'] ++ "Hi".toList)).reverse = true :=
    revHeadNotSpace_append (srtLine1 ⟨0, 1, "Hi ".toList⟩ ++ ['\n']) "Hi".toList (by decide)
  have key : filter_captions (srtCaptions [⟨0, 1, "Hi ".toList⟩]) = "Hi".toList := by
    rw [h1]
    show pyJoin [' '] (selectTextLines 0 (pySplitNL (pyStrip
      ((srtLine1 ⟨0, 1, "Hi ".toList⟩ ++ ['\n'] ++ "Hi".toList) ++ [' ', '\n', '\n'])))) = _
    rw [pyStrip_append_trailing _ _ hhead hrev (by decide)]
    have hsplit : srtLine1 ⟨0, 1, "Hi ".toList⟩ ++ ['\n'] ++ "Hi".toList
        = srtLine1 ⟨0, 1, "Hi ".toList⟩ ++ ('\n' :: "Hi".toList) := by
      simp [List.append_assoc]
    rw [hsplit, pySplitNL_append _ _ (noNL_srtLine1 _),
      pySplitNL_no_newline "Hi".toList (by decide)]
    rw [sel_cons, if_neg (by decide), sel_cons, if_pos (by decide)]
    rfl
  rw [key]
  decide

/-- C7 (amended): the round-trip `filter_captions ∘ download_captions`
returns exactly the newline-collapsed segment texts, space-joined in
order, provided the last segment's collapsed text ends with a visible
(non-whitespace) character; with a trailing-whitespace final text,
`strip` removes those characters (see the counterexample). -/
theorem c7_amended_roundtrip (entries : List CaptionEntry)
    (hlast : entries ≠ [] →
      headNotSpace (pyReplaceNL ((entries.getLastD ⟨0, 0, []⟩).text)).reverse = true) :
    filter_captions (srtCaptions entries)
      = pyJoin [' '] (entries.map fun e => pyReplaceNL e.text) := by
  rw [srtCaptions_eq_blocksText]
  have hmap : (entries.map srtBlock).map Prod.snd
      = entries.map fun e => pyReplaceNL e.text := by
    simp [srtBlock, List.map_map, Function.comp]
  rw [← hmap]
  apply filter_captions_blocksText
  · intro b hb
    obtain ⟨e, _, rfl⟩ := List.mem_map.mp hb
    exact ⟨noNL_srtLine1 e, noNL_pyReplaceNL e.text⟩
  · intro b hb
    obtain ⟨e, _, rfl⟩ := List.mem_map.mp hb
    exact headNotSpace_srtLine1 e
  · intro hne
    have hne2 : entries ≠ [] := by
      intro h
      rw [h] at hne
      exact hne rfl
    rw [getLastD_ignore _ hne ([], []) (srtBlock ⟨0, 0, []⟩),
      getLastD_map srtBlock entries ⟨0, 0, []⟩]
    exact hlast hne2

theorem c7_amended_roundtrip_witness :
    (([⟨0, 2, "Hi there".toList⟩] : List CaptionEntry) ≠ [] →
      headNotSpace (pyReplaceNL
        ((([⟨0, 2, "Hi there".toList⟩] : List CaptionEntry).getLastD
          ⟨0, 0, []⟩).text)).reverse = true)
    ∧ filter_captions (srtCaptions [⟨0, 2, "Hi there".toList⟩])
        = pyJoin [' ']
            (([⟨0, 2, "Hi there".toList⟩] : List CaptionEntry).map
              fun e => pyReplaceNL e.text) :=
  ⟨by decide, c7_amended_roundtrip [⟨0, 2, "Hi there".toList⟩] (by decide)⟩
